import Mathlib

/-!
Verification of the ginkgo suite-execution engine against its specification.

The definitions below are a shallow embedding of the Go source in
`src/table_dsl.go` (package `ginkgo`: the table DSL; package `internal`:
the `Suite` orchestrator).  Pure control flow is translated function by
function; the executable bodies of user nodes, the interrupt handler and
the parallel transport are external collaborators and enter the model as
explicit outcome parameters.  Helpers that live in files of the repository
not present under `src/` (the `types` and `internal` node helpers) are
modelled from the specification and marked as such in their doc comments.
-/

namespace Ginkgo

/-- Modelled from the spec: the `types.SpecState` enumeration is not under
`src/`; the spec lists the states Passed, Failed, Skipped, Pending,
Interrupted, Aborted and Invalid (the Go zero value). -/
inductive SpecState where
  | invalid
  | pending
  | skipped
  | passed
  | failed
  | aborted
  | interrupted
  deriving DecidableEq, Repr

/-- Modelled from the spec: the `types.NodeType` tags.  `invalid` is the Go
zero value carried by an empty `types.Failure`. -/
inductive NodeType where
  | invalid
  | container
  | it
  | beforeEach
  | justBeforeEach
  | afterEach
  | justAfterEach
  | beforeSuite
  | afterSuite
  | syncBeforeSuite
  | syncAfterSuite
  | reportAfterEach
  | reportAfterSuite
  deriving DecidableEq, Repr

/-- Modelled from the spec: the failure-context classification used when
pre-populating failure metadata (leaf vs top-level vs nested-container);
`invalidCtx` is the Go zero value. -/
inductive FailureNodeContext where
  | invalidCtx
  | leafNode
  | topLevel
  | inContainer
  deriving DecidableEq, Repr

/-- Shallow embedding of `types.Failure`: message, source location (a code
location is abstracted to a natural number), forwarded-panic marker and the
failing node's context classification.  Field defaults are the Go zero
values, so `{}` is the empty `types.Failure{}`. -/
structure Failure where
  message : String := ""
  location : Nat := 0
  forwardedPanic : Bool := false
  failureNodeContext : FailureNodeContext := .invalidCtx
  failureNodeContainerIndex : Int := 0
  failureNodeType : NodeType := .invalid
  failureNodeLocation : Nat := 0
  deriving DecidableEq, Repr

/-- A node as the execution engine sees it: an identifier naming its body,
its type tag, nesting level (a Go `int`, compared against `-1`) and code
location. -/
structure NodeMeta where
  id : Nat
  nodeType : NodeType
  nestingLevel : Int
  codeLocation : Nat
  deriving DecidableEq, Repr

/-- Result a node-body task delivers through the outcome channels: the
drained failer state (lines 786-788 of the source). -/
structure BodyOutcome where
  state : SpecState
  failure : Failure
  deriving DecidableEq, Repr

/-- Modelled from the spec: `types.NodeTypesForSuiteLevelNodes` is not under
`src/`; the suite-level nodes are exactly those diverted to `pushSuiteNode`
(line 327) plus `ReportAfterSuite`. -/
def isSuiteLevel (t : NodeType) : Bool :=
  match t with
  | .beforeSuite | .afterSuite | .syncBeforeSuite | .syncAfterSuite | .reportAfterSuite => true
  | _ => false

/-- Failure metadata pre-populated before a node body is invoked
(source lines 766-774). -/
def initialFailure (node : NodeMeta) : Failure :=
  let base : Failure :=
    { message := ""
      location := 0
      forwardedPanic := false
      failureNodeContext := .invalidCtx
      failureNodeContainerIndex := 0
      failureNodeType := node.nodeType
      failureNodeLocation := node.codeLocation }
  if node.nodeType = .it ∨ isSuiteLevel node.nodeType then
    { base with failureNodeContext := .leafNode }
  else if node.nestingLevel ≤ 0 then
    { base with failureNodeContext := .topLevel }
  else
    { base with failureNodeContext := .inContainer
                failureNodeContainerIndex := node.nestingLevel - 1 }

/-- Environment of one `runNode` invocation.  The body runs in an isolated
task; `interruptFiresFirst` records which of the two `select` signals
(source lines 795-806) arrives first, `body` is the outcome the task would
eventually deliver, and `interruptMessage` is the interrupt handler's
current stack-trace snapshot. -/
structure RunNodeEnv where
  interruptFiresFirst : Bool
  body : BodyOutcome
  interruptMessage : String

/-- Shallow embedding of `Suite.runNode` (source lines 757-807).  Progress
emission and the writer are side channels not reflected in the return
value.  The `select` race is rendered by `interruptFiresFirst`: when the
interrupt channel fires first the task's eventual outcome is abandoned and
never consulted. -/
def runNode (node : NodeMeta) (env : RunNodeEnv) : SpecState × Failure :=
  let failure := initialFailure node
  if env.interruptFiresFirst then
    (.interrupted, { failure with message := env.interruptMessage, location := node.codeLocation })
  else if env.body.state = .passed then
    (.passed, {})
  else
    (env.body.state,
     { failure with message := env.body.failure.message
                    location := env.body.failure.location
                    forwardedPanic := env.body.failure.forwardedPanic })

/-- Folding rule applied when a cleanup node's or report hook's outcome is
merged into the current spec report (source lines 611-614 and 650-652: the
two sites have the identical condition
`State == SpecStatePassed || state == SpecStateAborted`). -/
def applyCleanupOutcome (current new : SpecState × Failure) : SpecState × Failure :=
  if current.1 = .passed ∨ new.1 = .aborted then new else current

/-- Claim C2: whenever a cleanup node's or a ReportAfterEach hook's outcome
is folded into the current spec report, the new state and failure replace
the recorded ones if the previously recorded state is Passed or the new
outcome is Aborted; in every other case the prior state and failure are
kept unchanged. -/
theorem applyCleanupOutcome_rule (current new : SpecState × Failure) :
    (current.1 = .passed ∨ new.1 = .aborted → applyCleanupOutcome current new = new) ∧
    (current.1 ≠ .passed ∧ new.1 ≠ .aborted → applyCleanupOutcome current new = current) := by
  constructor
  · intro h
    simp [applyCleanupOutcome, h]
  · intro h
    simp [applyCleanupOutcome, h.1, h.2]

/-- Witness for claim C2 at concrete states: a Failed cleanup outcome
overwrites a Passed report, and a Failed cleanup outcome does not overwrite
an already Failed report. -/
theorem applyCleanupOutcome_rule_witness :
    applyCleanupOutcome (.passed, {}) (.failed, {}) = (.failed, {}) ∧
    applyCleanupOutcome (.failed, {}) (.skipped, {}) = (.failed, {}) :=
  ⟨(applyCleanupOutcome_rule (.passed, {}) (.failed, {})).1 (Or.inl rfl),
   (applyCleanupOutcome_rule (.failed, {}) (.skipped, {})).2
     ⟨by decide, by decide⟩⟩

/-- Claim C4: if the interrupt signal fires before the node body's outcome
is delivered, `runNode` returns state Interrupted (never Passed) with the
interrupt handler's stack-trace message as the failure message, and the
abandoned task's eventual result is discarded: the returned value does not
depend on it. -/
theorem runNode_interrupt (node : NodeMeta) (env : RunNodeEnv)
    (h : env.interruptFiresFirst = true) :
    (runNode node env).1 = .interrupted ∧
    (runNode node env).1 ≠ .passed ∧
    (runNode node env).2.message = env.interruptMessage ∧
    (∀ b : BodyOutcome, runNode node { env with body := b } = runNode node env) := by
  refine ⟨?_, ?_, ?_, ?_⟩ <;> simp [runNode, h]

/-- Witness for claim C4: a concrete interrupted execution of an It node
whose abandoned body would have passed. -/
theorem runNode_interrupt_witness :
    (runNode ⟨0, .it, 1, 7⟩
      ⟨true, ⟨.passed, {}⟩, ("interrupt stack")⟩).1 = .interrupted ∧
    (runNode ⟨0, .it, 1, 7⟩
      ⟨true, ⟨.passed, {}⟩, ("interrupt stack")⟩).1 ≠ .passed ∧
    (runNode ⟨0, .it, 1, 7⟩
      ⟨true, ⟨.passed, {}⟩, ("interrupt stack")⟩).2.message = ("interrupt stack") ∧
    (∀ b : BodyOutcome,
      runNode ⟨0, .it, 1, 7⟩ ⟨true, b, ("interrupt stack")⟩ =
      runNode ⟨0, .it, 1, 7⟩ ⟨true, ⟨.passed, {}⟩, ("interrupt stack")⟩) :=
  runNode_interrupt ⟨0, .it, 1, 7⟩ ⟨true, ⟨.passed, {}⟩, ("interrupt stack")⟩ rfl

/-- The source's `max` helper for Go ints (source lines 819-824). -/
def goMax (a b : Int) : Int := if a > b then a else b

/-- Modelled from the spec: `Nodes.WithType` (the `internal` node helpers are
not under `src/`) selects the nodes carrying one given type tag, preserving
order. -/
def withType (t : NodeType) (ns : List NodeMeta) : List NodeMeta :=
  ns.filter (fun n => decide (n.nodeType = t))

/-- Stable insertion into a list kept in descending nesting-level order. -/
def insertDescByLevel (n : NodeMeta) : List NodeMeta → List NodeMeta
  | [] => [n]
  | m :: ms =>
    if m.nestingLevel ≤ n.nestingLevel then n :: m :: ms
    else m :: insertDescByLevel n ms

/-- Modelled from the spec: `Nodes.SortedByDescendingNestingLevel` is not
under `src/`; the spec requires descending nesting-level order (a stable
insertion sort). -/
def sortDescByLevel : List NodeMeta → List NodeMeta
  | [] => []
  | n :: ns => insertDescByLevel n (sortDescByLevel ns)

/-- Stable insertion into a list kept in ascending nesting-level order. -/
def insertAscByLevel (n : NodeMeta) : List NodeMeta → List NodeMeta
  | [] => [n]
  | m :: ms =>
    if n.nestingLevel ≤ m.nestingLevel then n :: m :: ms
    else m :: insertAscByLevel n ms

/-- Modelled from the spec: `Nodes.SortedByAscendingNestingLevel` is not
under `src/`; the spec requires ascending nesting-level order (shallow to
deep). -/
def sortAscByLevel : List NodeMeta → List NodeMeta
  | [] => []
  | n :: ns => insertAscByLevel n (sortAscByLevel ns)

theorem insertDescByLevel_perm (n : NodeMeta) (l : List NodeMeta) :
    List.Perm (insertDescByLevel n l) (n :: l) := by
  induction l with
  | nil => simp [insertDescByLevel]
  | cons m ms ih =>
    by_cases h : m.nestingLevel ≤ n.nestingLevel
    · simp [insertDescByLevel, h]
    · simp only [insertDescByLevel, if_neg h]
      exact (ih.cons m).trans (List.Perm.swap n m ms)

theorem sortDescByLevel_perm (l : List NodeMeta) : List.Perm (sortDescByLevel l) l := by
  induction l with
  | nil => simp [sortDescByLevel]
  | cons n ns ih =>
    exact (insertDescByLevel_perm n (sortDescByLevel ns)).trans (ih.cons n)

theorem insertDescByLevel_pairwise (n : NodeMeta) (l : List NodeMeta)
    (h : List.Pairwise (fun a b => b.nestingLevel ≤ a.nestingLevel) l) :
    List.Pairwise (fun a b => b.nestingLevel ≤ a.nestingLevel) (insertDescByLevel n l) := by
  induction l with
  | nil => simp [insertDescByLevel]
  | cons m ms ih =>
    rcases List.pairwise_cons.mp h with ⟨hm, hms⟩
    by_cases hc : m.nestingLevel ≤ n.nestingLevel
    · simp only [insertDescByLevel, if_pos hc]
      refine List.pairwise_cons.mpr ⟨?_, h⟩
      intro x hx
      rcases List.mem_cons.mp hx with rfl | hx
      · exact hc
      · exact (hm x hx).trans hc
    · simp only [insertDescByLevel, if_neg hc]
      refine List.pairwise_cons.mpr ⟨?_, ih hms⟩
      intro x hx
      rcases List.mem_cons.mp ((insertDescByLevel_perm n ms).mem_iff.mp hx) with h1 | hx2
      · rw [h1]
        exact le_of_lt (not_le.mp hc)
      · exact hm x hx2

theorem sortDescByLevel_pairwise (l : List NodeMeta) :
    List.Pairwise (fun a b => b.nestingLevel ≤ a.nestingLevel) (sortDescByLevel l) := by
  induction l with
  | nil => simp [sortDescByLevel]
  | cons n ns ih => exact insertDescByLevel_pairwise n (sortDescByLevel ns) ih

/-- A spec as handed to `runSpec`: its node list and its flake-attempt
decoration (`spec.FlakeAttempts()`). -/
structure SpecNodes where
  nodes : List NodeMeta
  flakeAttempts : Nat := 0

/-- Suite configuration fields consumed by the execution engine. -/
structure SuiteConfig where
  dryRun : Bool := false
  flakeAttempts : Nat := 0
  failFast : Bool := false
  failOnPending : Bool := false
  parallelTotal : Nat := 1
  parallelNode : Nat := 1
  emitSpecProgress : Bool := false
  deriving DecidableEq, Repr

/-- The setup sequence of one attempt (source lines 592-594): all
BeforeEach nodes in ascending nesting-level order, then all JustBeforeEach
nodes in ascending nesting-level order, then the It nodes. -/
def setupNodesOf (spec : SpecNodes) : List NodeMeta :=
  sortAscByLevel (withType .beforeEach spec.nodes) ++
  sortAscByLevel (withType .justBeforeEach spec.nodes) ++
  withType .it spec.nodes

/-- The cleanup sequence of one attempt (source lines 605-607): all
JustAfterEach nodes in descending nesting-level order, then all AfterEach
nodes in descending nesting-level order, restricted to nesting level at
most `deepest` (`Nodes.WithinNestingLevel`, modelled from the spec: cleanup
only fires for scopes that were actually entered). -/
def cleanupNodesOf (spec : SpecNodes) (deepest : Int) : List NodeMeta :=
  (sortDescByLevel (withType .justAfterEach spec.nodes) ++
   sortDescByLevel (withType .afterEach spec.nodes)).filter
    (fun n => decide (n.nestingLevel ≤ deepest))

/-- The setup loop of one attempt (source lines 596-603): each node's
`runNode` outcome (given by `out`, keyed by node id) replaces the current
report state, `deepest` tracks the maximal nesting level reached, and the
loop stops after the first node whose outcome is not Passed.  Returns the
final report state, the deepest level attained and the trace of nodes whose
bodies were invoked. -/
def runSetupNodes (out : Nat → BodyOutcome) :
    (SpecState × Failure) → Int → List NodeMeta →
    (SpecState × Failure) × Int × List NodeMeta
  | current, deepest, [] => (current, deepest, [])
  | _current, deepest, n :: rest =>
    let deepest2 := goMax deepest n.nestingLevel
    let res := out n.id
    if res.state = .passed then
      let s := runSetupNodes out (res.state, res.failure) deepest2 rest
      (s.1, s.2.1, n :: s.2.2)
    else ((res.state, res.failure), deepest2, [n])

/-- The cleanup loop of one attempt (source lines 608-615): every listed
node runs, and its outcome is folded into the report by
`applyCleanupOutcome`.  Returns the final report state and the trace of
invoked nodes. -/
def runCleanupNodes (out : Nat → BodyOutcome) :
    (SpecState × Failure) → List NodeMeta → (SpecState × Failure) × List NodeMeta
  | current, [] => (current, [])
  | current, n :: rest =>
    let res := out n.id
    let s := runCleanupNodes out (applyCleanupOutcome current (res.state, res.failure)) rest
    (s.1, n :: s.2)

/-- Outcome of one full attempt of a spec. -/
structure AttemptResult where
  state : SpecState
  failure : Failure
  deepest : Int
  setupTrace : List NodeMeta
  cleanupTrace : List NodeMeta
  deriving DecidableEq, Repr

/-- One attempt of `runSpec` (source lines 590-615): run the setup sequence
with `deepestNestingLevelAttained` starting at `-1`, then the cleanup
sequence restricted to the level attained. -/
def runAttempt (spec : SpecNodes) (out : Nat → BodyOutcome)
    (current : SpecState × Failure) : AttemptResult :=
  let s := runSetupNodes out current (-1) (setupNodesOf spec)
  let c := runCleanupNodes out s.1 (cleanupNodesOf spec s.2.1)
  ⟨c.1.1, c.1.2, s.2.1, s.2.2, c.2⟩

theorem runCleanupNodes_trace (out : Nat → BodyOutcome) (l : List NodeMeta) :
    ∀ current, (runCleanupNodes out current l).2 = l := by
  induction l with
  | nil => intro current; rfl
  | cons n rest ih =>
    intro current
    simp only [runCleanupNodes]
    rw [ih]

theorem runSetupNodes_deepest (out : Nat → BodyOutcome) (l : List NodeMeta) :
    ∀ (current : SpecState × Failure) (d : Int),
    (runSetupNodes out current d l).2.1 =
      (((runSetupNodes out current d l).2.2).map (fun n => n.nestingLevel)).foldl goMax d := by
  induction l with
  | nil => intro current d; rfl
  | cons n rest ih =>
    intro current d
    simp only [runSetupNodes]
    by_cases h : (out n.id).state = .passed
    · simp only [if_pos h, List.map_cons, List.foldl_cons]
      exact ih _ _
    · simp only [if_neg h, List.map_cons, List.map_nil, List.foldl_cons, List.foldl_nil]

/-- Claim C1: during one spec attempt the cleanup phase runs exactly the
JustAfterEach nodes (descending nesting-level order) followed by the
AfterEach nodes (descending nesting-level order) whose nesting level is at
most `deepestNestingLevelAttained`, which equals the deepest nesting level
among the BeforeEach/JustBeforeEach/It nodes actually executed that attempt
(folded from the initial `-1`); no cleanup node deeper than that level is
invoked. -/
theorem runAttempt_cleanup_scoping (spec : SpecNodes) (out : Nat → BodyOutcome)
    (current : SpecState × Failure) :
    (runAttempt spec out current).cleanupTrace =
        (sortDescByLevel (withType .justAfterEach spec.nodes)).filter
          (fun n => decide (n.nestingLevel ≤ (runAttempt spec out current).deepest)) ++
        (sortDescByLevel (withType .afterEach spec.nodes)).filter
          (fun n => decide (n.nestingLevel ≤ (runAttempt spec out current).deepest)) ∧
    List.Pairwise (fun a b => b.nestingLevel ≤ a.nestingLevel)
      ((sortDescByLevel (withType .justAfterEach spec.nodes)).filter
        (fun n => decide (n.nestingLevel ≤ (runAttempt spec out current).deepest))) ∧
    List.Pairwise (fun a b => b.nestingLevel ≤ a.nestingLevel)
      ((sortDescByLevel (withType .afterEach spec.nodes)).filter
        (fun n => decide (n.nestingLevel ≤ (runAttempt spec out current).deepest))) ∧
    (runAttempt spec out current).cleanupTrace.Perm
      ((withType .justAfterEach spec.nodes ++ withType .afterEach spec.nodes).filter
        (fun n => decide (n.nestingLevel ≤ (runAttempt spec out current).deepest))) ∧
    (runAttempt spec out current).deepest =
      (((runAttempt spec out current).setupTrace).map (fun n => n.nestingLevel)).foldl goMax (-1) ∧
    (∀ n ∈ (runAttempt spec out current).cleanupTrace,
      n.nestingLevel ≤ (runAttempt spec out current).deepest) := by
  have htrace : (runAttempt spec out current).cleanupTrace =
      cleanupNodesOf spec (runAttempt spec out current).deepest := by
    simp only [runAttempt]
    exact runCleanupNodes_trace out _ _
  have hsplit : (runAttempt spec out current).cleanupTrace =
      (sortDescByLevel (withType .justAfterEach spec.nodes)).filter
        (fun n => decide (n.nestingLevel ≤ (runAttempt spec out current).deepest)) ++
      (sortDescByLevel (withType .afterEach spec.nodes)).filter
        (fun n => decide (n.nestingLevel ≤ (runAttempt spec out current).deepest)) := by
    rw [htrace, cleanupNodesOf, List.filter_append]
  refine ⟨hsplit, ?_, ?_, ?_, ?_, ?_⟩
  · exact (sortDescByLevel_pairwise _).sublist (List.filter_sublist _)
  · exact (sortDescByLevel_pairwise _).sublist (List.filter_sublist _)
  · rw [htrace, cleanupNodesOf]
    exact List.Perm.filter _ ((sortDescByLevel_perm _).append (sortDescByLevel_perm _))
  · simp only [runAttempt]
    exact runSetupNodes_deepest out _ _ _
  · intro n hn
    rw [htrace, cleanupNodesOf] at hn
    exact of_decide_eq_true (List.mem_filter.mp hn).2

/-- One entry of the diagnostic (Ginkgo) writer: either the framework's
"Attempt #N Failed.  Retrying..." notice (source line 587) or output
produced while nodes run. -/
inductive WriterEntry where
  | retryNotice (attempt : Nat)
  | output (s : String)
  deriving DecidableEq, Repr

/-- Per-spec execution environment: for every attempt and node id the
`runNode` outcome the node's body would produce, the interrupt status
polled at the end of each attempt (source line 625), and whatever the
attempt's nodes write to the diagnostic writer. -/
structure SpecEnv where
  outcome : Nat → Nat → BodyOutcome
  interruptedAfter : Nat → Bool
  attemptOutput : Nat → List String

/-- Final content of the current spec report after `runSpec`, together with
the trace of node bodies invoked across all attempts. -/
structure SpecRunResult where
  state : SpecState
  failure : Failure
  numAttempts : Nat
  writer : List WriterEntry
  invoked : List Nat
  deriving DecidableEq, Repr

/-- `maxAttempts` (source lines 578-581): the spec's own flake-attempt
decoration with a minimum of 1, overridden by the suite-wide configuration
when that is positive. -/
def maxAttempts (cfg : SuiteConfig) (spec : SpecNodes) : Nat :=
  if cfg.flakeAttempts > 0 then cfg.flakeAttempts else max 1 spec.flakeAttempts

/-- The attempt loop of `runSpec` (source lines 583-628): each iteration
stamps `NumAttempts = attempt + 1`, prefixes a retry notice for attempts
after the first, runs one attempt, and stops when the attempt passed or an
interrupt was observed. -/
def runAttemptLoop (spec : SpecNodes) (env : SpecEnv) :
    Nat → Nat → (SpecState × Failure) → List WriterEntry → List Nat → SpecRunResult
  | attempt, 0, current, writer, invoked => ⟨current.1, current.2, attempt, writer, invoked⟩
  | attempt, fuel+1, current, writer, invoked =>
    let writer2 := if attempt > 0 then writer ++ [.retryNotice attempt] else writer
    let r := runAttempt spec (env.outcome attempt) current
    let writer3 := writer2 ++ (env.attemptOutput attempt).map .output
    let invoked2 := invoked ++ (r.setupTrace ++ r.cleanupTrace).map (fun n => n.id)
    if r.state = .passed then ⟨r.state, r.failure, attempt + 1, writer3, invoked2⟩
    else if env.interruptedAfter attempt then ⟨r.state, r.failure, attempt + 1, writer3, invoked2⟩
    else runAttemptLoop spec env (attempt + 1) fuel (r.state, r.failure) writer3 invoked2

/-- `Suite.runSpec` (source lines 569-629): under dry-run the report is
short-circuited to Passed with no body invoked; otherwise the writer is
truncated and the attempt loop runs starting from the zero-valued report
state (Invalid). -/
def runSpec (cfg : SuiteConfig) (spec : SpecNodes) (env : SpecEnv) : SpecRunResult :=
  if cfg.dryRun then ⟨.passed, {}, 0, [], []⟩
  else runAttemptLoop spec env 0 (maxAttempts cfg spec) (.invalid, {}) [] []

/-- Report state one attempt produces when started from a fresh report;
when the setup sequence is non-empty this is the state any attempt of the
loop produces, whatever the previous attempt left behind. -/
def attemptState (spec : SpecNodes) (env : SpecEnv) (attempt : Nat) : SpecState :=
  (runAttempt spec (env.outcome attempt) (.invalid, {})).state

def isRetryNotice : WriterEntry → Bool
  | .retryNotice _ => true
  | .output _ => false

/-- Number of "Retrying" notices in the captured diagnostic writer. -/
def retryCount (writer : List WriterEntry) : Nat := (writer.filter isRetryNotice).length

theorem retryCount_append (w1 w2 : List WriterEntry) :
    retryCount (w1 ++ w2) = retryCount w1 + retryCount w2 := by
  simp [retryCount, List.filter_append]

theorem retryCount_outputs (l : List String) :
    retryCount (l.map WriterEntry.output) = 0 := by
  induction l with
  | nil => rfl
  | cons s rest ih => simpa [retryCount, isRetryNotice] using ih

theorem retryCount_notice (a : Nat) : retryCount [WriterEntry.retryNotice a] = 1 := by
  simp [retryCount, isRetryNotice]

theorem retryCount_notice_cons (a : Nat) (l : List WriterEntry) :
    retryCount (WriterEntry.retryNotice a :: l) = retryCount l + 1 := by
  simp [retryCount, List.filter_cons, isRetryNotice, Nat.add_comm]

theorem retryCount_step (writer : List WriterEntry) (a : Nat) (l : List String) :
    retryCount ((if a > 0 then writer ++ [WriterEntry.retryNotice a] else writer) ++
      l.map WriterEntry.output) = retryCount writer + (if a = 0 then 0 else 1) := by
  by_cases ha : a = 0
  · simp [ha, retryCount_append, retryCount_outputs]
  · have hpos : 0 < a := Nat.pos_of_ne_zero ha
    simp [if_pos hpos, if_neg ha, retryCount_append, retryCount_outputs, retryCount_notice,
      retryCount_notice_cons]

theorem runAttempt_current_irrel (spec : SpecNodes) (out : Nat → BodyOutcome)
    (c c' : SpecState × Failure) (h : setupNodesOf spec ≠ []) :
    runAttempt spec out c = runAttempt spec out c' := by
  cases hs : setupNodesOf spec with
  | nil => exact absurd hs h
  | cons n rest =>
    have hsetup : runSetupNodes out c (-1) (n :: rest) = runSetupNodes out c' (-1) (n :: rest) := by
      simp only [runSetupNodes]
    simp only [runAttempt, hs, hsetup]

theorem runAttemptLoop_pass (spec : SpecNodes) (env : SpecEnv)
    (hsetup : setupNodesOf spec ≠ []) :
    ∀ (i a fuel : Nat) (current : SpecState × Failure)
      (writer : List WriterEntry) (invoked : List Nat),
    i < fuel →
    (∀ j, j < i → attemptState spec env (a + j) = .failed) →
    (∀ j, j < i → env.interruptedAfter (a + j) = false) →
    attemptState spec env (a + i) = .passed →
    (runAttemptLoop spec env a fuel current writer invoked).state = .passed ∧
    (runAttemptLoop spec env a fuel current writer invoked).numAttempts = a + i + 1 ∧
    retryCount (runAttemptLoop spec env a fuel current writer invoked).writer =
      retryCount writer + (if a = 0 then i else i + 1) := by
  intro i
  induction i with
  | zero =>
    intro a fuel current writer invoked hfuel _hfail _hint hpass
    obtain ⟨f, rfl⟩ : ∃ f, fuel = f + 1 := ⟨fuel - 1, by omega⟩
    have hstate : (runAttempt spec (env.outcome a) current).state = .passed := by
      rw [runAttempt_current_irrel spec (env.outcome a) current (.invalid, {}) hsetup]
      simpa [attemptState] using hpass
    simp only [runAttemptLoop]
    rw [if_pos hstate]
    refine ⟨hstate, rfl, ?_⟩
    rw [retryCount_step]
  | succ i ih =>
    intro a fuel current writer invoked hfuel hfail hint hpass
    obtain ⟨f, rfl⟩ : ∃ f, fuel = f + 1 := ⟨fuel - 1, by omega⟩
    have hstate : (runAttempt spec (env.outcome a) current).state = .failed := by
      rw [runAttempt_current_irrel spec (env.outcome a) current (.invalid, {}) hsetup]
      simpa [attemptState] using hfail 0 (Nat.succ_pos i)
    have hnotpassed : ¬(runAttempt spec (env.outcome a) current).state = .passed := by
      rw [hstate]
      exact fun hcontra => by cases hcontra
    have hnotint : env.interruptedAfter a = false := by
      simpa using hint 0 (Nat.succ_pos i)
    simp only [runAttemptLoop, if_neg hnotpassed, hnotint, Bool.false_eq_true, if_neg,
      not_false_eq_true]
    have hrec := ih (a + 1) f
      ((runAttempt spec (env.outcome a) current).state,
        (runAttempt spec (env.outcome a) current).failure)
      ((if a > 0 then writer ++ [.retryNotice a] else writer) ++
        (env.attemptOutput a).map .output)
      (invoked ++ ((runAttempt spec (env.outcome a) current).setupTrace ++
        (runAttempt spec (env.outcome a) current).cleanupTrace).map (fun n => n.id))
      (by omega)
      (fun j hj => by
        have := hfail (j + 1) (by omega)
        simpa [Nat.add_assoc, Nat.add_comm 1 j] using this)
      (fun j hj => by
        have := hint (j + 1) (by omega)
        simpa [Nat.add_assoc, Nat.add_comm 1 j] using this)
      (by
        have := hpass
        simpa [Nat.add_assoc, Nat.add_comm 1 i] using this)
    refine ⟨hrec.1, ?_, ?_⟩
    · rw [hrec.2.1]
      omega
    · rw [hrec.2.2, retryCount_step, if_neg (Nat.succ_ne_zero a)]
      by_cases ha : a = 0 <;> simp [ha] <;> omega

/-- Claim C3: for a non-skipped spec run outside dry-run, with
`maxAttempts` derived from the flake-attempt decoration (suite override
winning, minimum 1), if every attempt before `k` failed without an observed
interrupt and attempt `k` passes (`k < maxAttempts`), the final report has
state Passed, `NumAttempts = k + 1`, and the captured diagnostic writer
holds exactly `k` "Retrying" notices. -/
theorem runSpec_flake_retry (cfg : SuiteConfig) (spec : SpecNodes) (env : SpecEnv) (k : Nat)
    (hdry : cfg.dryRun = false)
    (hsetup : setupNodesOf spec ≠ [])
    (hk : k < maxAttempts cfg spec)
    (hfail : ∀ j, j < k → attemptState spec env j = .failed)
    (hint : ∀ j, j < k → env.interruptedAfter j = false)
    (hpass : attemptState spec env k = .passed) :
    (runSpec cfg spec env).state = .passed ∧
    (runSpec cfg spec env).numAttempts = k + 1 ∧
    retryCount (runSpec cfg spec env).writer = k := by
  have h := runAttemptLoop_pass spec env hsetup k 0 (maxAttempts cfg spec)
    (.invalid, {}) [] [] hk
    (fun j hj => by simpa using hfail j hj)
    (fun j hj => by simpa using hint j hj)
    (by simpa using hpass)
  simp only [runSpec, hdry, Bool.false_eq_true, if_neg, not_false_eq_true]
  refine ⟨h.1, by simpa using h.2.1, ?_⟩
  have := h.2.2
  simpa [retryCount] using this

/-- Concrete spec used in witnesses: one It node (id 0, level 0), no
decoration. -/
def witnessSpec : SpecNodes := ⟨[⟨0, .it, 0, 5⟩], 0⟩

/-- Concrete environment used in the C3 witness: the It body fails on
attempt 0 and passes from attempt 1 on; never interrupted; writes
nothing. -/
def witnessEnv : SpecEnv :=
  ⟨fun a _ => if a = 0 then ⟨.failed, {}⟩ else ⟨.passed, {}⟩, fun _ => false, fun _ => []⟩

/-- Witness for claim C3: with a suite-wide flake-attempt override of 3,
the witness spec fails attempt 0, passes attempt 1, and ends Passed with
NumAttempts 2 and one "Retrying" notice. -/
theorem runSpec_flake_retry_witness :
    (({ flakeAttempts := 3 } : SuiteConfig).dryRun = false ∧
     setupNodesOf witnessSpec ≠ [] ∧
     1 < maxAttempts { flakeAttempts := 3 } witnessSpec ∧
     (∀ j, j < 1 → attemptState witnessSpec witnessEnv j = .failed) ∧
     (∀ j, j < 1 → witnessEnv.interruptedAfter j = false) ∧
     attemptState witnessSpec witnessEnv 1 = .passed) ∧
    (runSpec { flakeAttempts := 3 } witnessSpec witnessEnv).state = .passed ∧
    (runSpec { flakeAttempts := 3 } witnessSpec witnessEnv).numAttempts = 2 ∧
    retryCount (runSpec { flakeAttempts := 3 } witnessSpec witnessEnv).writer = 1 :=
  ⟨⟨rfl, by decide, by decide, by decide, by decide, by decide⟩,
   runSpec_flake_retry { flakeAttempts := 3 } witnessSpec witnessEnv 1
     rfl (by decide) (by decide) (by decide) (by decide) (by decide)⟩

/-- The ReportAfterEach nodes of a spec, in descending nesting-level order
(source line 632). -/
def reportAfterEachNodes (spec : SpecNodes) : List NodeMeta :=
  sortDescByLevel (withType .reportAfterEach spec.nodes)

/-- Outcome of the per-spec report hooks, with the trace of hook bodies
invoked. -/
structure ReportHooksResult where
  state : SpecState
  failure : Failure
  invoked : List Nat
  deriving DecidableEq, Repr

/-- `Suite.reportAfterEach` (source lines 631-657): every ReportAfterEach
node of the spec runs (interrupt delivery suppressed via the placeholder
message), and its outcome is folded into the current report under the
`applyCleanupOutcome` rule (source lines 650-652).  Deliberately mirroring
the source, there is NO dry-run short circuit here: the configuration
argument is not consulted. -/
def reportAfterEach (_cfg : SuiteConfig) (spec : SpecNodes)
    (current : SpecState × Failure) (out : Nat → BodyOutcome) : ReportHooksResult :=
  let s := runCleanupNodes out current (reportAfterEachNodes spec)
  ⟨s.1.1, s.1.2, s.2.map (fun n => n.id)⟩

/-- State of the coordination service's SynchronizedBeforeSuite endpoint.
Modelled from the spec: the parallel transport is an external collaborator;
the primary's broadcast either lands as success-with-data or as a failure
signal, and a failed broadcast leaves the endpoint without data. -/
inductive BSServer where
  | waiting
  | succeeded (data : List Nat)
  | failed
  deriving DecidableEq, Repr

/-- Modelled from the spec: `client.BlockUntilSynchronizedBeforeSuiteData`
returns the primary's data blob, and returns an error when the primary
reported failure; when no broadcast ever lands the call never yields data
(rendered as the same error outcome — in either case no data arrives). -/
def blockUntilData : BSServer → Except Unit (List Nat)
  | .succeeded data => .ok data
  | _ => .error ()

/-- Per-invocation environment of `runSuiteNode`: outcomes the node bodies
would produce, the transport call results, and the incoming endpoint
state.  `produceData` is the blob the primary's produce body returns. -/
structure SuiteNodeEnv where
  bodyOutcome : BodyOutcome
  produceOutcome : BodyOutcome
  produceData : List Nat
  postDataOk : Bool
  postFailOk : Bool
  consumeOutcome : BodyOutcome
  allNodesOutcome : BodyOutcome
  blockNonprimariesOk : Bool
  primaryTeardownOutcome : BodyOutcome
  serverIn : BSServer
  commErrorMsg : String

/-- Which suite-node bodies were invoked, in order; the consume tag carries
the data blob the body was fed. -/
inductive BodyTag where
  | plainBody
  | produceBody
  | consumeBody (data : List Nat)
  | afterAllBody
  | afterPrimaryBody
  | reportSuiteBody
  deriving DecidableEq, Repr

/-- Result of `runSuiteNode`: final report state, invoked bodies and the
outgoing endpoint state (only the primary's SynchronizedBeforeSuite branch
changes it). -/
structure SuiteNodeResult where
  state : SpecState
  failure : Failure
  invoked : List BodyTag
  serverOut : BSServer
  deriving DecidableEq, Repr

/-- `Suite.failureForLeafNodeWithError` (source lines 809-817). -/
def failureForLeafNodeWithError (node : NodeMeta) (msg : String) : SpecState × Failure :=
  (.failed,
   { message := msg
     location := node.codeLocation
     forwardedPanic := false
     failureNodeContext := .leafNode
     failureNodeContainerIndex := 0
     failureNodeType := node.nodeType
     failureNodeLocation := node.codeLocation })

/-- `Suite.runSuiteNode` (source lines 659-720): dry-run short-circuits to
Passed; BeforeSuite/AfterSuite run their single body; the synchronized
variants follow the two-stage protocol, and a transport error whose report
state is still Invalid or Passed is converted into a Failed leaf failure
(source lines 710-712). -/
def runSuiteNode (cfg : SuiteConfig) (node : NodeMeta) (env : SuiteNodeEnv) : SuiteNodeResult :=
  if cfg.dryRun then ⟨.passed, {}, [], env.serverIn⟩
  else
    match node.nodeType with
    | .beforeSuite | .afterSuite =>
      ⟨env.bodyOutcome.state, env.bodyOutcome.failure, [.plainBody], env.serverIn⟩
    | .syncBeforeSuite =>
      if cfg.parallelNode = 1 then
        let r1 := env.produceOutcome
        let err : Bool :=
          if cfg.parallelTotal > 1 then
            if r1.state = .passed then !env.postDataOk else !env.postFailOk
          else false
        let server : BSServer :=
          if cfg.parallelTotal > 1 then
            if r1.state = .passed then
              (if env.postDataOk then .succeeded env.produceData else .waiting)
            else
              (if env.postFailOk then .failed else .waiting)
          else env.serverIn
        if r1.state = .passed ∧ err = false then
          let r2 := env.consumeOutcome
          ⟨r2.state, r2.failure, [.produceBody, .consumeBody env.produceData], server⟩
        else if err = true ∧ (r1.state = .invalid ∨ r1.state = .passed) then
          let s := failureForLeafNodeWithError node env.commErrorMsg
          ⟨s.1, s.2, [.produceBody], server⟩
        else
          ⟨r1.state, r1.failure, [.produceBody], server⟩
      else
        match blockUntilData env.serverIn with
        | .ok data =>
          let r2 := env.consumeOutcome
          ⟨r2.state, r2.failure, [.consumeBody data], env.serverIn⟩
        | .error _ =>
          let s := failureForLeafNodeWithError node env.commErrorMsg
          ⟨s.1, s.2, [], env.serverIn⟩
    | .syncAfterSuite =>
      let r1 := env.allNodesOutcome
      if cfg.parallelNode = 1 then
        let err : Bool := if cfg.parallelTotal > 1 then !env.blockNonprimariesOk else false
        if err = false then
          let r2 := env.primaryTeardownOutcome
          if r1.state = .passed then
            ⟨r2.state, r2.failure, [.afterAllBody, .afterPrimaryBody], env.serverIn⟩
          else
            ⟨r1.state, r1.failure, [.afterAllBody, .afterPrimaryBody], env.serverIn⟩
        else if r1.state = .invalid ∨ r1.state = .passed then
          let s := failureForLeafNodeWithError node env.commErrorMsg
          ⟨s.1, s.2, [.afterAllBody], env.serverIn⟩
        else
          ⟨r1.state, r1.failure, [.afterAllBody], env.serverIn⟩
      else
        ⟨r1.state, r1.failure, [.afterAllBody], env.serverIn⟩
    | _ => ⟨.invalid, {}, [], env.serverIn⟩

/-- The SynchronizedBeforeSuite protocol across workers: the primary
(parallel node 1) runs first, updating the coordination endpoint; any
other worker then observes the endpoint the primary left behind.  Worker
indices follow the source convention of counting from 1. -/
def syncBeforeSuiteProtocol (cfg : SuiteConfig) (node : NodeMeta) (env : SuiteNodeEnv)
    (w : Nat) : SuiteNodeResult :=
  let primary := runSuiteNode { cfg with parallelNode := 1 } node { env with serverIn := .waiting }
  if w = 1 then primary
  else runSuiteNode { cfg with parallelNode := w } node { env with serverIn := primary.serverOut }

/-- Environment of `runReportAfterSuiteNode`: whether the aggregation of
the non-primary workers' reports succeeds and the outcome of the hook
body. -/
structure ReportSuiteEnv where
  aggregateOk : Bool
  bodyOutcome : BodyOutcome
  commErrorMsg : String

/-- `Suite.runReportAfterSuiteNode` (source lines 722-755): dry-run
short-circuits to Passed; in parallel mode a failed aggregation of the
other workers' reports yields a Failed leaf failure without running the
body; otherwise the body runs with interrupts suppressed. -/
def runReportAfterSuiteNode (cfg : SuiteConfig) (node : NodeMeta)
    (env : ReportSuiteEnv) : ReportHooksResult :=
  if cfg.dryRun then ⟨.passed, {}, []⟩
  else if cfg.parallelTotal > 1 ∧ env.aggregateOk = false then
    let s := failureForLeafNodeWithError node env.commErrorMsg
    ⟨s.1, s.2, []⟩
  else
    ⟨env.bodyOutcome.state, env.bodyOutcome.failure, [node.id]⟩

theorem runSuiteNode_syncBefore_primary (cfg : SuiteConfig) (node : NodeMeta)
    (env : SuiteNodeEnv) (hdry : cfg.dryRun = false)
    (hnode : node.nodeType = .syncBeforeSuite) (h1 : cfg.parallelNode = 1) :
    (runSuiteNode cfg node env).invoked =
      (if env.produceOutcome.state = .passed ∧ (cfg.parallelTotal ≤ 1 ∨ env.postDataOk = true)
       then [.produceBody, .consumeBody env.produceData] else [.produceBody]) ∧
    (runSuiteNode cfg node env).serverOut =
      (if cfg.parallelTotal > 1 then
        (if env.produceOutcome.state = .passed then
          (if env.postDataOk then .succeeded env.produceData else .waiting)
         else (if env.postFailOk then .failed else .waiting))
       else env.serverIn) := by
  by_cases hp : env.produceOutcome.state = SpecState.passed <;>
  by_cases ht : cfg.parallelTotal > 1 <;>
  by_cases hpd : env.postDataOk = true <;>
  by_cases hpf : env.postFailOk = true <;>
  by_cases hinv : env.produceOutcome.state = SpecState.invalid <;>
  simp_all [runSuiteNode, Nat.not_lt, Bool.not_eq_true] <;>
  rw [if_neg (by omega)] <;>
  simp_all <;>
  rw [if_neg (by omega)]

theorem runSuiteNode_syncBefore_nonprimary (cfg : SuiteConfig) (node : NodeMeta)
    (env : SuiteNodeEnv) (hdry : cfg.dryRun = false)
    (hnode : node.nodeType = .syncBeforeSuite) (h1 : cfg.parallelNode ≠ 1) :
    (runSuiteNode cfg node env).invoked =
      (match env.serverIn with
       | .succeeded data => [.consumeBody data]
       | _ => []) := by
  cases hs : env.serverIn <;>
  simp_all [runSuiteNode, blockUntilData]

/-- Claim C5: in a SynchronizedBeforeSuite execution the produce body runs
exactly on the primary worker; any consume body invocation receives exactly
the data blob the primary's produce body returned; if the produce step
fails or the broadcast to the coordination service fails no worker invokes
the consume body; and when the produce step passes and the broadcast lands
(trivially so when running alone), every worker invokes the consume body
with that blob. -/
theorem syncBeforeSuite_protocol (cfg : SuiteConfig) (node : NodeMeta)
    (env : SuiteNodeEnv) (w : Nat)
    (hdry : cfg.dryRun = false)
    (hnode : node.nodeType = .syncBeforeSuite)
    (hw : 1 ≤ w) (hwt : w ≤ cfg.parallelTotal) :
    (BodyTag.produceBody ∈ (syncBeforeSuiteProtocol cfg node env w).invoked ↔ w = 1) ∧
    (∀ d, BodyTag.consumeBody d ∈ (syncBeforeSuiteProtocol cfg node env w).invoked →
      d = env.produceData) ∧
    ((env.produceOutcome.state ≠ .passed ∨ (cfg.parallelTotal > 1 ∧ env.postDataOk = false)) →
      ∀ d, BodyTag.consumeBody d ∉ (syncBeforeSuiteProtocol cfg node env w).invoked) ∧
    ((env.produceOutcome.state = .passed ∧ (cfg.parallelTotal > 1 → env.postDataOk = true)) →
      BodyTag.consumeBody env.produceData ∈ (syncBeforeSuiteProtocol cfg node env w).invoked) := by
  have hprim := runSuiteNode_syncBefore_primary { cfg with parallelNode := 1 } node
    { env with serverIn := .waiting } hdry hnode rfl
  by_cases hw1 : w = 1
  · have hif : syncBeforeSuiteProtocol cfg node env w =
        runSuiteNode { cfg with parallelNode := 1 } node { env with serverIn := .waiting } := by
      simp [syncBeforeSuiteProtocol, hw1]
    rw [hif, hprim.1]
    by_cases hp : env.produceOutcome.state = SpecState.passed <;>
    by_cases ht : cfg.parallelTotal > 1 <;>
    by_cases hpd : env.postDataOk = true <;>
    simp_all [Nat.not_lt, Bool.not_eq_true] <;>
    rw [if_neg (by omega)] <;>
    simp
  · have ht : cfg.parallelTotal > 1 := by omega
    have hif : syncBeforeSuiteProtocol cfg node env w =
        runSuiteNode { cfg with parallelNode := w } node
          { env with serverIn := (runSuiteNode { cfg with parallelNode := 1 } node
            { env with serverIn := .waiting }).serverOut } := by
      simp [syncBeforeSuiteProtocol, hw1]
    rw [hif, runSuiteNode_syncBefore_nonprimary { cfg with parallelNode := w } node _
      (by simpa using hdry) hnode (by simpa using hw1)]
    simp only
    rw [hprim.2]
    by_cases hp : env.produceOutcome.state = SpecState.passed <;>
    by_cases hpd : env.postDataOk = true <;>
    by_cases hpf : env.postFailOk = true <;>
    simp_all [Nat.not_lt, Bool.not_eq_true]

/-- Concrete configuration for the SynchronizedBeforeSuite witness: three
parallel workers. -/
def cfgSyncW : SuiteConfig := { parallelTotal := 3 }

/-- Concrete SynchronizedBeforeSuite node for witnesses. -/
def nodeSyncW : NodeMeta := ⟨1, .syncBeforeSuite, 0, 11⟩

/-- Concrete suite-node environment for witnesses: the produce body passes
returning blob [1, 2], every transport call succeeds. -/
def envSyncW : SuiteNodeEnv :=
  { bodyOutcome := ⟨.passed, {}⟩
    produceOutcome := ⟨.passed, {}⟩
    produceData := [1, 2]
    postDataOk := true
    postFailOk := true
    consumeOutcome := ⟨.passed, {}⟩
    allNodesOutcome := ⟨.passed, {}⟩
    blockNonprimariesOk := true
    primaryTeardownOutcome := ⟨.passed, {}⟩
    serverIn := .waiting
    commErrorMsg := "" }

/-- Witness for claim C5: with three workers, worker 2 does not run the
produce body, and runs the consume body exactly with the primary's blob. -/
theorem syncBeforeSuite_protocol_witness :
    (cfgSyncW.dryRun = false ∧ nodeSyncW.nodeType = .syncBeforeSuite ∧
     1 ≤ 2 ∧ 2 ≤ cfgSyncW.parallelTotal) ∧
    ((BodyTag.produceBody ∈ (syncBeforeSuiteProtocol cfgSyncW nodeSyncW envSyncW 2).invoked ↔
        2 = 1) ∧
     (∀ d, BodyTag.consumeBody d ∈ (syncBeforeSuiteProtocol cfgSyncW nodeSyncW envSyncW 2).invoked →
        d = envSyncW.produceData) ∧
     ((envSyncW.produceOutcome.state ≠ .passed ∨
        (cfgSyncW.parallelTotal > 1 ∧ envSyncW.postDataOk = false)) →
        ∀ d, BodyTag.consumeBody d ∉ (syncBeforeSuiteProtocol cfgSyncW nodeSyncW envSyncW 2).invoked) ∧
     ((envSyncW.produceOutcome.state = .passed ∧
        (cfgSyncW.parallelTotal > 1 → envSyncW.postDataOk = true)) →
        BodyTag.consumeBody envSyncW.produceData ∈
          (syncBeforeSuiteProtocol cfgSyncW nodeSyncW envSyncW 2).invoked)) :=
  ⟨⟨rfl, rfl, by decide, by decide⟩,
   syncBeforeSuite_protocol cfgSyncW nodeSyncW envSyncW 2 rfl rfl (by decide) (by decide)⟩

/-- Spec holding a single ReportAfterEach node, used for claim C7. -/
def specRAE : SpecNodes := ⟨[⟨5, .reportAfterEach, 1, 9⟩], 0⟩

/-- Counterexample to claim C7 as stated: under dry-run configuration the
per-spec ReportAfterEach hooks are still executed (the source's
`reportAfterEach`, lines 631-657, has no dry-run short circuit), so a node
body IS invoked (here node 5), and its failing outcome overwrites the
Passed state. -/
theorem dryRun_reportAfterEach_counterexample :
    (reportAfterEach ({ dryRun := true } : SuiteConfig) specRAE (.passed, {})
      (fun _ => ⟨.failed, {}⟩)).invoked = [5] ∧
    (reportAfterEach ({ dryRun := true } : SuiteConfig) specRAE (.passed, {})
      (fun _ => ⟨.failed, {}⟩)).state = .failed := by decide

/-- Claim C7 (amended): under dry-run configuration every spec
(`runSpec`), suite-level hook (`runSuiteNode`) and ReportAfterSuite hook
(`runReportAfterSuiteNode`) is recorded with state Passed and none of their
node bodies is invoked; ReportAfterEach hook bodies, however, are NOT
short-circuited: every ReportAfterEach node of the spec still runs and its
outcome is folded into the spec report. -/
theorem dryRun_short_circuit (cfg : SuiteConfig) (spec : SpecNodes) (env : SpecEnv)
    (node : NodeMeta) (senv : SuiteNodeEnv) (renv : ReportSuiteEnv)
    (current : SpecState × Failure) (out : Nat → BodyOutcome)
    (hdry : cfg.dryRun = true) :
    runSpec cfg spec env = ⟨.passed, {}, 0, [], []⟩ ∧
    (runSuiteNode cfg node senv).state = .passed ∧
    (runSuiteNode cfg node senv).invoked = [] ∧
    (runReportAfterSuiteNode cfg node renv).state = .passed ∧
    (runReportAfterSuiteNode cfg node renv).invoked = [] ∧
    (reportAfterEach cfg spec current out).invoked =
      (reportAfterEachNodes spec).map (fun n => n.id) := by
  refine ⟨?_, ?_, ?_, ?_, ?_, ?_⟩ <;>
  simp [runSpec, runSuiteNode, runReportAfterSuiteNode, reportAfterEach, hdry,
    runCleanupNodes_trace]

/-- Concrete report-suite environment for witnesses. -/
def renvW : ReportSuiteEnv := ⟨true, ⟨.passed, {}⟩, ""⟩

/-- Witness for claim C7 (amended) at a concrete dry-run configuration. -/
theorem dryRun_short_circuit_witness :
    ({ dryRun := true } : SuiteConfig).dryRun = true ∧
    (runSpec ({ dryRun := true } : SuiteConfig) specRAE witnessEnv =
        ⟨.passed, {}, 0, [], []⟩ ∧
      (runSuiteNode ({ dryRun := true } : SuiteConfig) nodeSyncW envSyncW).state = .passed ∧
      (runSuiteNode ({ dryRun := true } : SuiteConfig) nodeSyncW envSyncW).invoked = [] ∧
      (runReportAfterSuiteNode ({ dryRun := true } : SuiteConfig) nodeSyncW renvW).state = .passed ∧
      (runReportAfterSuiteNode ({ dryRun := true } : SuiteConfig) nodeSyncW renvW).invoked = [] ∧
      (reportAfterEach ({ dryRun := true } : SuiteConfig) specRAE (.passed, {})
        (fun _ => ⟨.failed, {}⟩)).invoked =
        (reportAfterEachNodes specRAE).map (fun n => n.id)) :=
  ⟨rfl,
   dryRun_short_circuit ({ dryRun := true } : SuiteConfig) specRAE witnessEnv nodeSyncW
     envSyncW renvW (.passed, {}) (fun _ => ⟨.failed, {}⟩) rfl⟩

/-- The orchestrator's phase state machine (source lines 261-267). -/
inductive Phase where
  | buildTopLevel
  | buildTree
  | run
  deriving DecidableEq, Repr

/-- Modelled from the spec: the `types.GinkgoErrors` constructors raised by
`pushSuiteNode`; each carries the offending node's type and code location,
and the duplicate-registration errors additionally name the first
registration's node type and code location. -/
inductive GinkgoErr where
  | suiteNodeInNestedContext (nt : NodeType) (cl : Nat)
  | suiteNodeDuringRunPhase (nt : NodeType) (cl : Nat)
  | multipleBeforeSuiteNodes (nt : NodeType) (cl : Nat) (firstNT : NodeType) (firstCL : Nat)
  | multipleAfterSuiteNodes (nt : NodeType) (cl : Nat) (firstNT : NodeType) (firstCL : Nat)
  deriving DecidableEq, Repr

/-- Modelled from the spec: `Nodes.WithType` with several tags, preserving
order. -/
def withTypes (ts : List NodeType) (ns : List NodeMeta) : List NodeMeta :=
  ns.filter (fun n => decide (n.nodeType ∈ ts))

/-- `Suite.pushSuiteNode` (source lines 369-393): suite-level nodes are
refused during BuildTree (nested context) and Run; in BuildTopLevel a
second node of the Before-suite family (or After-suite family) is refused
with an error naming the first registration, and otherwise the node is
appended to the suite-node list.  An `error` result leaves the caller's
list untouched: the node is not added. -/
def pushSuiteNode (phase : Phase) (suiteNodes : List NodeMeta) (node : NodeMeta) :
    Except GinkgoErr (List NodeMeta) :=
  if phase = .buildTree then
    .error (.suiteNodeInNestedContext node.nodeType node.codeLocation)
  else if phase = .run then
    .error (.suiteNodeDuringRunPhase node.nodeType node.codeLocation)
  else
    match node.nodeType with
    | .beforeSuite | .syncBeforeSuite =>
      match withTypes [.beforeSuite, .syncBeforeSuite] suiteNodes with
      | first :: _ =>
        .error (.multipleBeforeSuiteNodes node.nodeType node.codeLocation
          first.nodeType first.codeLocation)
      | [] => .ok (suiteNodes ++ [node])
    | .afterSuite | .syncAfterSuite =>
      match withTypes [.afterSuite, .syncAfterSuite] suiteNodes with
      | first :: _ =>
        .error (.multipleAfterSuiteNodes node.nodeType node.codeLocation
          first.nodeType first.codeLocation)
      | [] => .ok (suiteNodes ++ [node])
    | _ => .ok (suiteNodes ++ [node])

/-- True exactly when a `pushSuiteNode` result is one of the
duplicate-registration errors, the ones that cite the first registration's
node type and code location. -/
def isDuplicateSuiteNodeErr : Except GinkgoErr (List NodeMeta) → Bool
  | .error (.multipleBeforeSuiteNodes _ _ _ _) => true
  | .error (.multipleAfterSuiteNodes _ _ _ _) => true
  | _ => false

/-- Counterexample to claim C8 as stated: pushing a second
BeforeSuite-family node while the orchestrator is in the BuildTree phase
(a container body is being entered) fails with the nested-context error
carrying only the new node's own location (20) — it does not name the
first registration's node type or location (10); during Run the analogous
run-phase error is returned.  So the second registration is not ALWAYS
refused with an error naming the first registration. -/
theorem pushSuiteNode_phase_counterexample :
    pushSuiteNode .buildTree [⟨0, .beforeSuite, 0, 10⟩] ⟨1, .beforeSuite, 0, 20⟩ =
      .error (.suiteNodeInNestedContext .beforeSuite 20) ∧
    isDuplicateSuiteNodeErr
      (pushSuiteNode .buildTree [⟨0, .beforeSuite, 0, 10⟩] ⟨1, .beforeSuite, 0, 20⟩) = false ∧
    pushSuiteNode .run [⟨0, .beforeSuite, 0, 10⟩] ⟨1, .beforeSuite, 0, 20⟩ =
      .error (.suiteNodeDuringRunPhase .beforeSuite 20) :=
  ⟨rfl, rfl, rfl⟩

/-- Claim C8 (amended): in the BuildTopLevel phase — the only phase in
which suite-level registration can succeed at all — pushing a second node
of the BeforeSuite family when one is already registered returns the
duplicate error naming the first registration's node type and code
location, and likewise for the AfterSuite family; the error return means
the second node is not added to the suite-node list.  (In the BuildTree
and Run phases any suite-node push fails with a phase error that does not
cite the first registration.) -/
theorem pushSuiteNode_duplicate (suiteNodes : List NodeMeta) (node first : NodeMeta)
    (rest : List NodeMeta) :
    ((node.nodeType = .beforeSuite ∨ node.nodeType = .syncBeforeSuite) →
      withTypes [.beforeSuite, .syncBeforeSuite] suiteNodes = first :: rest →
      pushSuiteNode .buildTopLevel suiteNodes node =
        .error (.multipleBeforeSuiteNodes node.nodeType node.codeLocation
          first.nodeType first.codeLocation)) ∧
    ((node.nodeType = .afterSuite ∨ node.nodeType = .syncAfterSuite) →
      withTypes [.afterSuite, .syncAfterSuite] suiteNodes = first :: rest →
      pushSuiteNode .buildTopLevel suiteNodes node =
        .error (.multipleAfterSuiteNodes node.nodeType node.codeLocation
          first.nodeType first.codeLocation)) := by
  constructor <;>
  · rintro (h | h) hw <;>
    simp [pushSuiteNode, h, hw]

/-- Witness for claim C8 (amended): a SynchronizedBeforeSuite pushed after
a BeforeSuite at location 10 is refused, naming the BeforeSuite and
location 10. -/
theorem pushSuiteNode_duplicate_witness :
    ((⟨1, .syncBeforeSuite, 0, 20⟩ : NodeMeta).nodeType = .syncBeforeSuite ∧
     withTypes [.beforeSuite, .syncBeforeSuite] [⟨0, .beforeSuite, 0, 10⟩] =
       (⟨0, .beforeSuite, 0, 10⟩ : NodeMeta) :: []) ∧
    pushSuiteNode .buildTopLevel [⟨0, .beforeSuite, 0, 10⟩] ⟨1, .syncBeforeSuite, 0, 20⟩ =
      .error (.multipleBeforeSuiteNodes .syncBeforeSuite 20 .beforeSuite 10) :=
  ⟨⟨rfl, by decide⟩,
   (pushSuiteNode_duplicate [⟨0, .beforeSuite, 0, 10⟩] ⟨1, .syncBeforeSuite, 0, 20⟩
     ⟨0, .beforeSuite, 0, 10⟩ []).1 (Or.inr rfl) (by decide)⟩

/-- One spec as the `runSpecs` loop sees it: its Skip flag as set by the
external flattening/focus pipeline, whether any of its nodes is marked
Pending, the report state `runSpec` leaves when the spec actually runs,
and the outcomes of its ReportAfterEach hooks in run order. -/
structure LoopSpec where
  skip : Bool
  markedPending : Bool
  runResult : SpecState
  reportHookOutcomes : List SpecState
  deriving DecidableEq, Repr

/-- Modelled from the spec: `types.SpecStateFailureStates` is not under
`src/`; failure states are Failed, Aborted and Interrupted (Interruption
and aborts force overall failure, Skipped/Pending/Passed do not). -/
def isFailureState : SpecState → Bool
  | .failed | .aborted | .interrupted => true
  | _ => false

/-- State-level projection of the `applyCleanupOutcome` folding rule, used
when only report states are tracked. -/
def applyOutcomeState (current new : SpecState) : SpecState :=
  if current = .passed ∨ new = .aborted then new else current

/-- Reported state of a spec that is skipped at reporting time: Skipped,
or Pending when a node is marked Pending (source lines 492-497), with its
ReportAfterEach hook outcomes folded in (the hooks run even for skipped
specs, source line 507). -/
def skippedStateOf (s : LoopSpec) : SpecState :=
  s.reportHookOutcomes.foldl applyOutcomeState (if s.markedPending then .pending else .skipped)

/-- Suite-level inputs of `runSpecs` that come from the interrupt handler
and the suite hooks. -/
structure RunSpecsEnv where
  interruptedAtStart : Bool
  interruptedAt : Nat → Bool
  interruptedAtEnd : Bool
  beforeSuiteOutcome : SpecState
  afterSuiteOutcome : SpecState

/-- The per-spec loop of `Suite.runSpecs` (source lines 466-516) for a
single worker (the next-index counter hands out 0, 1, 2, …): each spec is
skipped if its Skip flag is set, or fail-fast is on and the suite has
already failed, or an interrupt was observed, or the suite was aborted;
skipped specs report Skipped (Pending when marked), run specs report
`runSpec`'s outcome; ReportAfterEach hook outcomes are folded in; the
suite-succeeded flag drops on any failure state and the aborted flag rises
on an Aborted report. -/
def specLoop (cfg : SuiteConfig) (interruptedAt : Nat → Bool) :
    Nat → Bool → Bool → List LoopSpec → List SpecState × Bool × Bool
  | _, suiteSucceeded, suiteAborted, [] => ([], suiteSucceeded, suiteAborted)
  | i, suiteSucceeded, suiteAborted, s :: rest =>
    let skip := s.skip || ((cfg.failFast && !suiteSucceeded) || interruptedAt i || suiteAborted)
    let pre : SpecState :=
      if skip then (if s.markedPending then .pending else .skipped) else s.runResult
    let st := s.reportHookOutcomes.foldl applyOutcomeState pre
    let r := specLoop cfg interruptedAt (i + 1)
      (suiteSucceeded && !(isFailureState st))
      (suiteAborted || decide (st = .aborted)) rest
    (st :: r.1, r.2)

/-- Modelled from the spec: `Specs.CountWithoutSkip` — the number of specs
whose Skip flag is not set, computed once before the loop. -/
def countWithoutSkip (specs : List LoopSpec) : Nat :=
  (specs.filter (fun s => !s.skip)).length

/-- Observable outcome of one `runSpecs` call. -/
structure RunSpecsOut where
  reported : List SpecState
  beforeSuiteRan : Bool
  afterSuiteRan : Bool
  suiteSucceeded : Bool
  deriving Repr

/-- `Suite.runSpecs` (source lines 414-564) for a single worker:
`numSpecsThatWillBeRun` is computed once before anything runs; the
before-suite hook runs only if present, no interrupt was observed before
it starts, and that count is positive; the spec loop runs only while the
suite is still succeeding after the before-hook; fail-on-pending and the
after-suite hook follow; the after-suite gate checks only that the node
exists and the precomputed count is positive.  (The primary-only
ReportAfterSuite hooks are modelled separately by
`runReportAfterSuiteNode`.) -/
def runSpecsM (cfg : SuiteConfig) (hasBeforeSuite hasAfterSuite : Bool)
    (specs : List LoopSpec) (env : RunSpecsEnv) : RunSpecsOut :=
  let numToRun := countWithoutSkip specs
  let beforeRan := hasBeforeSuite && !env.interruptedAtStart && decide (numToRun > 0)
  let succ0 := !(beforeRan && isFailureState env.beforeSuiteOutcome)
  let loopOut :=
    if succ0 = true then specLoop cfg env.interruptedAt 0 true false specs
    else ([], succ0, false)
  let succ1 := loopOut.2.1 && !(cfg.failOnPending && specs.any (fun s => s.markedPending))
  let afterRan := hasAfterSuite && decide (numToRun > 0)
  let succ2 := succ1 && !(afterRan && isFailureState env.afterSuiteOutcome)
  let succ3 := succ2 && !env.interruptedAtEnd
  ⟨loopOut.1, beforeRan, afterRan, succ3⟩

theorem specLoop_all_skip (cfg : SuiteConfig) (interruptedAt : Nat → Bool)
    (hff : cfg.failFast = true) :
    ∀ (specs : List LoopSpec) (i : Nat) (ab : Bool),
    (specLoop cfg interruptedAt i false ab specs).1 = specs.map skippedStateOf := by
  intro specs
  induction specs with
  | nil => intro i ab; rfl
  | cons s rest ih =>
    intro i ab
    simp only [specLoop, hff, Bool.not_false, Bool.and_true, Bool.true_or, Bool.or_true,
      Bool.or_self, Bool.false_and, Bool.and_false, if_pos, List.map_cons]
    rw [ih]
    simp [skippedStateOf]

theorem specLoop_drop_after_failure (cfg : SuiteConfig) (interruptedAt : Nat → Bool)
    (hff : cfg.failFast = true) :
    ∀ (specs : List LoopSpec) (i : Nat) (succ ab : Bool) (j : Nat),
    isFailureState ((specLoop cfg interruptedAt i succ ab specs).1.getD j .invalid) = true →
    (specLoop cfg interruptedAt i succ ab specs).1.drop (j + 1) =
      (specs.drop (j + 1)).map skippedStateOf := by
  intro specs
  induction specs with
  | nil =>
    intro i succ ab j hj
    simp [specLoop, isFailureState] at hj
  | cons s rest ih =>
    intro i succ ab j hj
    cases j with
    | zero =>
      simp only [specLoop, List.getD_cons_zero] at hj
      simp only [specLoop, List.drop_succ_cons, List.drop_zero]
      rw [hj]
      simp only [Bool.not_true, Bool.and_false]
      exact specLoop_all_skip cfg interruptedAt hff rest (i + 1) _
    | succ j =>
      simp only [specLoop, List.getD_cons_succ] at hj
      simp only [specLoop, List.drop_succ_cons]
      exact ih (i + 1) _ _ j hj

/-- Claim C6 (amended): with fail-fast enabled, once some spec's reported
state is a failure state (given the before-suite hook did not already fail,
so the loop is entered), every subsequent spec in the loop is skipped and
reported with the skipped-time state: Skipped, or Pending when the spec
has a Pending-marked node, with its ReportAfterEach outcomes folded in;
the after-suite hook still runs exactly when it exists and the
spec-will-run count — computed once before the loop — is positive, and the
before-suite hook additionally requires that no interrupt was observed
before it started. -/
theorem runSpecs_failFast (cfg : SuiteConfig) (hb ha : Bool) (specs : List LoopSpec)
    (env : RunSpecsEnv) (j : Nat)
    (hff : cfg.failFast = true)
    (hbefore : isFailureState env.beforeSuiteOutcome = false)
    (hj : isFailureState ((runSpecsM cfg hb ha specs env).reported.getD j .invalid) = true) :
    (runSpecsM cfg hb ha specs env).reported.drop (j + 1) =
      (specs.drop (j + 1)).map skippedStateOf ∧
    (runSpecsM cfg hb ha specs env).afterSuiteRan =
      (ha && decide (0 < countWithoutSkip specs)) ∧
    (runSpecsM cfg hb ha specs env).beforeSuiteRan =
      (hb && !env.interruptedAtStart && decide (0 < countWithoutSkip specs)) := by
  have hrep : (runSpecsM cfg hb ha specs env).reported =
      (specLoop cfg env.interruptedAt 0 true false specs).1 := by
    simp [runSpecsM, hbefore]
  rw [hrep] at hj
  refine ⟨?_, rfl, rfl⟩
  rw [hrep]
  exact specLoop_drop_after_failure cfg env.interruptedAt hff specs 0 true false j hj

/-- Counterexample to claim C6 as stated: fail-fast run where spec 0 fails
and spec 1 carries a Pending-marked node — spec 1 is skipped by fail-fast
but reported Pending, not Skipped. -/
theorem runSpecs_failFast_counterexample :
    (runSpecsM ({ failFast := true } : SuiteConfig) false true
      [⟨false, false, .failed, []⟩, ⟨false, true, .passed, []⟩]
      ⟨false, fun _ => false, false, .passed, .passed⟩).reported = [.failed, .pending] ∧
    (SpecState.pending ≠ SpecState.skipped) := by decide

/-- Witness for claim C6 (amended): fail-fast, five specs, spec 1 fails —
specs 2, 3, 4 all report Skipped and the after-suite hook still runs. -/
theorem runSpecs_failFast_witness :
    (({ failFast := true } : SuiteConfig).failFast = true ∧
     isFailureState (.passed : SpecState) = false ∧
     isFailureState ((runSpecsM ({ failFast := true } : SuiteConfig) true true
       [⟨false, false, .passed, []⟩, ⟨false, false, .failed, []⟩,
        ⟨false, false, .passed, []⟩, ⟨false, false, .passed, []⟩,
        ⟨false, false, .passed, []⟩]
       ⟨false, fun _ => false, false, .passed, .passed⟩).reported.getD 1 .invalid) = true) ∧
    ((runSpecsM ({ failFast := true } : SuiteConfig) true true
       [⟨false, false, .passed, []⟩, ⟨false, false, .failed, []⟩,
        ⟨false, false, .passed, []⟩, ⟨false, false, .passed, []⟩,
        ⟨false, false, .passed, []⟩]
       ⟨false, fun _ => false, false, .passed, .passed⟩).reported.drop 2 =
      ([⟨false, false, .passed, []⟩, ⟨false, false, .passed, []⟩,
        ⟨false, false, .passed, []⟩] : List LoopSpec).map skippedStateOf ∧
     (runSpecsM ({ failFast := true } : SuiteConfig) true true
       [⟨false, false, .passed, []⟩, ⟨false, false, .failed, []⟩,
        ⟨false, false, .passed, []⟩, ⟨false, false, .passed, []⟩,
        ⟨false, false, .passed, []⟩]
       ⟨false, fun _ => false, false, .passed, .passed⟩).afterSuiteRan = true ∧
     (runSpecsM ({ failFast := true } : SuiteConfig) true true
       [⟨false, false, .passed, []⟩, ⟨false, false, .failed, []⟩,
        ⟨false, false, .passed, []⟩, ⟨false, false, .passed, []⟩,
        ⟨false, false, .passed, []⟩]
       ⟨false, fun _ => false, false, .passed, .passed⟩).beforeSuiteRan = true) := by
  refine ⟨by decide, ?_⟩
  have h := runSpecs_failFast ({ failFast := true } : SuiteConfig) true true
    [⟨false, false, .passed, []⟩, ⟨false, false, .failed, []⟩,
     ⟨false, false, .passed, []⟩, ⟨false, false, .passed, []⟩,
     ⟨false, false, .passed, []⟩]
    ⟨false, fun _ => false, false, .passed, .passed⟩ 1 rfl rfl (by decide)
  exact ⟨h.1, by decide, by decide⟩

/-- Modelled from Go's `reflect` as the table DSL uses it: the dynamic
types of table parameters.  `iface` is the empty interface, to which every
type is assignable. -/
inductive GoType where
  | int
  | string
  | bool
  | slice (t : GoType)
  | iface
  deriving DecidableEq, Repr

/-- Modelled from Go's `reflect.Type.AssignableTo` at the granularity the
table layer needs: a type is assignable to itself and to the empty
interface. -/
def assignableTo (actual expected : GoType) : Bool :=
  match expected with
  | .iface => true
  | _ => decide (actual = expected)

/-- A Go value as the table layer sees it: its dynamic type and an opaque
payload.  `reflect.Zero t` is the payload-0 value of `t`. -/
structure GoValue where
  type : GoType
  payload : Nat
  deriving DecidableEq, Repr

/-- The zero `reflect.Value` of a type. -/
def GoValue.zero (t : GoType) : GoValue := ⟨t, 0⟩

/-- A Go function type through `reflect`: parameter types (for a variadic
function the last one is the variadic slice type), the variadic flag and
the result types. -/
structure FuncType where
  inTypes : List GoType
  variadic : Bool
  outTypes : List GoType
  deriving DecidableEq, Repr

/-- The `limit` computed by `validateParameters` and `invokeFunction`
(source lines 190-193 and 211-214): `NumIn()`, minus one when variadic. -/
def funcLimit (f : FuncType) : Nat :=
  if f.variadic then f.inTypes.length - 1 else f.inTypes.length

/-- `reflect.Type.Elem` of a slice type. -/
def elemType : GoType → GoType
  | .slice t => t
  | t => t

/-- Modelled from the spec: the `types.GinkgoErrors` constructors raised by
the table DSL; every parameter-validation error carries the code location
passed in (the Entry's declaration site). -/
inductive TableErr where
  | tooFewParameters (limit n : Nat) (kind : String) (cl : Nat)
  | tooManyParameters (limit n : Nat) (kind : String) (cl : Nat)
  | incorrectParameterType (i : Nat) (expected actual : GoType) (kind : String) (cl : Nat)
  | incorrectVariadicParameterType (expected actual : GoType) (kind : String) (cl : Nat)
  | invalidEntryDescription (cl : Nat)
  | multipleEntryBodyFunctions (cl : Nat)
  deriving DecidableEq, Repr

/-- The code location a table error refers to. -/
def TableErr.loc : TableErr → Nat
  | .tooFewParameters _ _ _ cl => cl
  | .tooManyParameters _ _ _ cl => cl
  | .incorrectParameterType _ _ _ _ cl => cl
  | .incorrectVariadicParameterType _ _ _ cl => cl
  | .invalidEntryDescription cl => cl
  | .multipleEntryBodyFunctions cl => cl

/-- The kind string `validateParameters` receives for a table body. -/
def tableBodyKind : String := "Table Body function"

/-- The kind string `validateParameters` receives for a description
function. -/
def entryDescKind : String := "Entry Description function"

/-- The first loop of `validateParameters` (source lines 221-228): for
each non-variadic position, a nil parameter (`reflect.TypeOf` nil) skips
the assignability check entirely; a typed parameter must be assignable to
the declared type. -/
def checkParams (kind : String) (cl : Nat) :
    Nat → List GoType → List (Option GoValue) → Option TableErr
  | _, [], _ => none
  | _, _ :: _, [] => none
  | i, t :: ts, p :: ps =>
    match p with
    | none => checkParams kind cl (i + 1) ts ps
    | some v =>
      if assignableTo v.type t then checkParams kind cl (i + 1) ts ps
      else some (.incorrectParameterType (i + 1) t v.type kind cl)

/-- The variadic loop of `validateParameters` (source lines 229-237), with
the same nil-skipping rule against the variadic element type. -/
def checkVariadic (kind : String) (cl : Nat) (expected : GoType) :
    List (Option GoValue) → Option TableErr
  | [] => none
  | p :: ps =>
    match p with
    | none => checkVariadic kind cl expected ps
    | some v =>
      if assignableTo v.type expected then checkVariadic kind cl expected ps
      else some (.incorrectVariadicParameterType expected v.type kind cl)

/-- `validateParameters` (source lines 209-240): arity checks, then the
positional type checks, then the variadic tail checks; `none` means the
parameters are accepted. -/
def validateParameters (f : FuncType) (params : List (Option GoValue))
    (kind : String) (cl : Nat) : Option TableErr :=
  let limit := funcLimit f
  if params.length < limit then
    some (.tooFewParameters limit params.length kind cl)
  else if params.length > limit ∧ f.variadic = false then
    some (.tooManyParameters limit params.length kind cl)
  else
    match checkParams kind cl 0 (f.inTypes.take limit) (params.take limit) with
    | some e => some e
    | none =>
      if f.variadic then
        checkVariadic kind cl (elemType (f.inTypes.getD limit .iface)) (params.drop limit)
      else none

/-- `computeValue` (source lines 242-248): a nil parameter becomes the zero
value of the declared type. -/
def computeValue (p : Option GoValue) (t : GoType) : GoValue :=
  match p with
  | none => GoValue.zero t
  | some v => v

/-- `invokeFunction` (source lines 186-207), rendered as the argument
vector actually passed to the user function's `Call`: positions below the
limit take the declared parameter type, variadic positions take the
variadic element type.  (A position at or past the limit of a non-variadic
function would stay an untouched zero `reflect.Value`; parameter
validation rules that case out.) -/
def invokeFunction (f : FuncType) (params : List (Option GoValue)) : List GoValue :=
  let limit := funcLimit f
  let elem := elemType (f.inTypes.getD limit .iface)
  (List.range params.length).map fun i =>
    if i < limit then computeValue (params.getD i none) (f.inTypes.getD i .iface)
    else if f.variadic then computeValue (params.getD i none) elem
    else GoValue.zero .iface

/-- An Entry description argument: a plain string, a function (valid only
when it returns exactly one string), or anything else. -/
inductive EntryDesc where
  | str (s : String)
  | fn (f : FuncType)
  | other
  deriving DecidableEq, Repr

/-- `TableEntry` (source lines 86-91); decorations are handled by
`PartitionDecorations` (not under `src/`) and do not affect the claims
modelled here. -/
structure TableEntry where
  description : EntryDesc
  parameters : List (Option GoValue)
  cl : Nat
  deriving DecidableEq, Repr

/-- `Entry` (source lines 101-104): a total constructor — registration of
an entry can never fail, whatever the parameters. -/
def Entry (description : EntryDesc) (parameters : List (Option GoValue))
    (cl : Nat) : TableEntry :=
  ⟨description, parameters, cl⟩

/-- The description-resolution step of the per-entry closure (source lines
155-165): a string stands; a function returning one string is validated
against the entry's parameters; anything else is an invalid-description
error at the entry's location. -/
def entryDescErr (e : TableEntry) : Option TableErr :=
  match e.description with
  | .str _ => none
  | .fn f =>
    if f.outTypes = [.string] then validateParameters f e.parameters entryDescKind e.cl
    else some (.invalidEntryDescription e.cl)
  | .other => some (.invalidEntryDescription e.cl)

/-- The combined per-entry validation (source lines 155-169): the
description error, if any, wins; otherwise the table body is validated
against the entry's parameters, always at the entry's own code location. -/
def entryErr (itBody : FuncType) (e : TableEntry) : Option TableErr :=
  match entryDescErr e with
  | some err => some err
  | none => validateParameters itBody e.parameters tableBodyKind e.cl

/-- The resolved description text (source lines 154-165): the Go zero
string when resolution failed; `evalDesc` is the user description
function's behaviour on the computed argument vector. -/
def entryText (evalDesc : FuncType → List GoValue → String) (e : TableEntry) : String :=
  match e.description with
  | .str s => s
  | .fn f =>
    if f.outTypes = [.string] ∧ validateParameters f e.parameters entryDescKind e.cl = none then
      evalDesc f (invokeFunction f e.parameters)
    else ""
  | .other => ""

/-- What the generated It node's body does when it runs (source lines
172-177): panic with the deferred validation error, or invoke the table
body on the computed arguments.  (`noBody` marks a table registered with
no body function, whose entries cannot run at all.) -/
inductive ItBodyResult where
  | panicked (e : TableErr)
  | invoked (args : List GoValue)
  | noBody
  deriving DecidableEq, Repr

/-- A generated It node: its code location is the Entry's declaration
site (source line 170). -/
structure ItNode where
  cl : Nat
  text : String
  run : ItBodyResult
  deriving DecidableEq, Repr

/-- Generation of one entry's It node inside the container body closure
(source lines 150-179). -/
def generateEntryIt (evalDesc : FuncType → List GoValue → String)
    (itBody : FuncType) (e : TableEntry) : ItNode :=
  { cl := e.cl
    text := entryText evalDesc e
    run :=
      match entryErr itBody e with
      | some err => .panicked err
      | none => .invoked (invokeFunction itBody e.parameters) }

/-- An argument to `DescribeTable` as the argument scan classifies it
(source lines 136-148): a table entry, a function, or a decoration passed
through to the container node. -/
inductive TableArg where
  | entry (e : TableEntry)
  | fn (f : FuncType)
  | other
  deriving Repr

/-- The argument scan of `generateTable` (source lines 136-148): entries
are collected in order, the single body function is recorded, and a second
function aborts registration with `MultipleEntryBodyFunctionsForTable` at
the table's location. -/
def scanArgs (cl : Nat) :
    List TableArg → List TableEntry → Option FuncType →
    Except TableErr (List TableEntry × Option FuncType)
  | [], entries, body => .ok (entries, body)
  | .entry e :: rest, entries, body => scanArgs cl rest (entries ++ [e]) body
  | .fn f :: rest, entries, body =>
    match body with
    | some _ => .error (.multipleEntryBodyFunctions cl)
    | none => scanArgs cl rest entries (some f)
  | .other :: rest, entries, body => scanArgs cl rest entries body

/-- The nodes `generateTable` registers: the container at the table's
location and one It node per entry. -/
structure TableNodes where
  containerCL : Nat
  its : List ItNode
  deriving Repr

/-- `generateTable` (source lines 129-184): scan the arguments, then emit
the container whose body pushes one It per entry.  Parameter mismatches do
NOT surface here — they are deferred into the generated It bodies. -/
def generateTable (cl : Nat) (evalDesc : FuncType → List GoValue → String)
    (args : List TableArg) : Except TableErr TableNodes :=
  match scanArgs cl args [] none with
  | .error e => .error e
  | .ok (entries, some f) => .ok ⟨cl, entries.map (generateEntryIt evalDesc f)⟩
  | .ok (entries, none) => .ok ⟨cl, entries.map (fun e => ⟨e.cl, "", .noBody⟩)⟩

theorem checkParams_loc (kind : String) (cl : Nat) :
    ∀ (ts : List GoType) (ps : List (Option GoValue)) (i : Nat) (e : TableErr),
    checkParams kind cl i ts ps = some e → e.loc = cl := by
  intro ts
  induction ts with
  | nil => intro ps i e h; simp [checkParams] at h
  | cons t ts ih =>
    intro ps i e h
    cases ps with
    | nil => simp [checkParams] at h
    | cons p ps =>
      cases p with
      | none => exact ih ps (i + 1) e h
      | some v =>
        simp only [checkParams] at h
        by_cases ha : assignableTo v.type t = true
        · rw [if_pos ha] at h
          exact ih ps (i + 1) e h
        · rw [if_neg ha] at h
          cases h
          rfl

theorem checkVariadic_loc (kind : String) (cl : Nat) (expected : GoType) :
    ∀ (ps : List (Option GoValue)) (e : TableErr),
    checkVariadic kind cl expected ps = some e → e.loc = cl := by
  intro ps
  induction ps with
  | nil => intro e h; simp [checkVariadic] at h
  | cons p ps ih =>
    intro e h
    cases p with
    | none => exact ih e h
    | some v =>
      simp only [checkVariadic] at h
      by_cases ha : assignableTo v.type expected = true
      · rw [if_pos ha] at h
        exact ih e h
      · rw [if_neg ha] at h
        cases h
        rfl

theorem validateParameters_loc (f : FuncType) (params : List (Option GoValue))
    (kind : String) (cl : Nat) (e : TableErr)
    (h : validateParameters f params kind cl = some e) : e.loc = cl := by
  simp only [validateParameters] at h
  split at h
  · cases h; rfl
  · split at h
    · cases h; rfl
    · split at h
      · rename_i heq
        cases h
        exact checkParams_loc kind cl _ _ _ _ heq
      · split at h
        · exact checkVariadic_loc kind cl _ _ _ h
        · cases h

theorem entryErr_loc (itBody : FuncType) (e : TableEntry) (err : TableErr)
    (h : entryErr itBody e = some err) : err.loc = e.cl := by
  simp only [entryErr] at h
  split at h
  · rename_i heq
    cases h
    simp only [entryDescErr] at heq
    split at heq
    · cases heq
    · split at heq
      · exact validateParameters_loc _ _ _ _ _ heq
      · cases heq; rfl
    · cases heq; rfl
  · exact validateParameters_loc _ _ _ _ _ h

/-- Claim C9: an entry whose parameters mismatch the table body's arity or
types (or whose description function's parameters mismatch) does not make
registration fail — `generateTable` still returns the container with one
It per entry (and `Entry` itself is a total constructor) — and the
mismatch instead surfaces when the generated It node's body runs, as the
deferred error, attached to an It node carrying the Entry's declaration
site and itself referencing that same location. -/
theorem table_mismatch_deferred (cl : Nat) (evalDesc : FuncType → List GoValue → String)
    (args : List TableArg) (entries : List TableEntry) (f : FuncType) (e : TableEntry)
    (err : TableErr)
    (hscan : scanArgs cl args [] none = .ok (entries, some f))
    (he : e ∈ entries)
    (herr : entryErr f e = some err) :
    generateTable cl evalDesc args = .ok ⟨cl, entries.map (generateEntryIt evalDesc f)⟩ ∧
    (generateEntryIt evalDesc f e).cl = e.cl ∧
    (generateEntryIt evalDesc f e).run = .panicked err ∧
    err.loc = e.cl := by
  refine ⟨?_, rfl, ?_, entryErr_loc f e err herr⟩
  · simp [generateTable, hscan]
  · simp [generateEntryIt, herr]

/-- Table body used in witnesses: one int parameter, not variadic. -/
def bodyF9 : FuncType := ⟨[.int], false, []⟩

/-- Entry used in the C9 witness: declared at location 42, one string
parameter — mismatching the int the body expects. -/
def entry9 : TableEntry := ⟨.str entryDescKind, [some ⟨.string, 1⟩], 42⟩

/-- Table-argument list used in the C9 witness. -/
def args9 : List TableArg := [.fn bodyF9, .entry entry9]

/-- Description-function behaviour used in witnesses (irrelevant to the
claims: entries here use plain-string descriptions). -/
def evalDesc9 : FuncType → List GoValue → String := fun _ _ => ""

/-- Witness for claim C9: a string-typed argument fed to an int-typed body
registers fine and defers an `IncorrectParameterType` error, at the
entry's declaration site 42, into the generated It body. -/
theorem table_mismatch_deferred_witness :
    (scanArgs 7 args9 [] none = .ok ([entry9], some bodyF9) ∧
     entry9 ∈ [entry9] ∧
     entryErr bodyF9 entry9 =
       some (.incorrectParameterType 1 .int .string tableBodyKind 42)) ∧
    (generateTable 7 evalDesc9 args9 =
       .ok ⟨7, [entry9].map (generateEntryIt evalDesc9 bodyF9)⟩ ∧
     (generateEntryIt evalDesc9 bodyF9 entry9).cl = entry9.cl ∧
     (generateEntryIt evalDesc9 bodyF9 entry9).run =
       .panicked (.incorrectParameterType 1 .int .string tableBodyKind 42) ∧
     (TableErr.incorrectParameterType 1 .int .string tableBodyKind 42).loc = entry9.cl) :=
  ⟨⟨rfl, List.mem_singleton.mpr rfl, rfl⟩,
   table_mismatch_deferred 7 evalDesc9 args9 [entry9] bodyF9 entry9
     (.incorrectParameterType 1 .int .string tableBodyKind 42)
     rfl (List.mem_singleton.mpr rfl) rfl⟩

theorem checkParams_none (kind : String) (cl : Nat) :
    ∀ (ts : List GoType) (ps : List (Option GoValue)) (i : Nat),
    (∀ p ∈ ps, p = none) → checkParams kind cl i ts ps = none := by
  intro ts
  induction ts with
  | nil => intro ps i _h; cases ps <;> rfl
  | cons t ts ih =>
    intro ps i hps
    cases ps with
    | nil => rfl
    | cons p ps =>
      have hp : p = none := hps p (List.mem_cons_self p ps)
      subst hp
      simp only [checkParams]
      exact ih ps (i + 1) (fun q hq => hps q (List.mem_cons_of_mem _ hq))

theorem checkVariadic_none (kind : String) (cl : Nat) (expected : GoType) :
    ∀ (ps : List (Option GoValue)),
    (∀ p ∈ ps, p = none) → checkVariadic kind cl expected ps = none := by
  intro ps
  induction ps with
  | nil => intro _h; rfl
  | cons p ps ih =>
    intro hps
    have hp : p = none := hps p (List.mem_cons_self p ps)
    subst hp
    simp only [checkVariadic]
    exact ih (fun q hq => hps q (List.mem_cons_of_mem _ hq))

theorem getD_none_of_all_none :
    ∀ (ps : List (Option GoValue)) (i : Nat),
    (∀ p ∈ ps, p = none) → ps[i]?.getD none = none := by
  intro ps
  induction ps with
  | nil => intro i _h; cases i <;> rfl
  | cons p ps ih =>
    intro i h
    cases i with
    | zero => simpa using h p (List.mem_cons_self p ps)
    | succ i =>
      simp only [List.getElem?_cons_succ]
      exact ih i (fun q hq => h q (List.mem_cons_of_mem _ hq))

/-- Claim C10: nil values in an entry's parameter list pass parameter
validation against any declared parameter types (the assignability check
is skipped for nil), and invocation replaces each nil parameter by the
zero value of the declared type (the variadic element type past the
limit), so an Entry with nil arguments never produces a type-mismatch
error. -/
theorem nil_parameters_ok (f : FuncType) (params : List (Option GoValue))
    (kind : String) (cl : Nat)
    (hnil : ∀ p ∈ params, p = none)
    (hlen : funcLimit f ≤ params.length)
    (har : f.variadic = true ∨ params.length = funcLimit f) :
    validateParameters f params kind cl = none ∧
    invokeFunction f params = (List.range params.length).map (fun i =>
      if i < funcLimit f then GoValue.zero (f.inTypes.getD i .iface)
      else GoValue.zero (elemType (f.inTypes.getD (funcLimit f) .iface))) := by
  constructor
  · simp only [validateParameters]
    rw [if_neg (Nat.not_lt.mpr hlen)]
    have h2 : ¬(params.length > funcLimit f ∧ f.variadic = false) := by
      rintro ⟨hgt, hfv⟩
      rcases har with hv | he
      · rw [hv] at hfv
        cases hfv
      · omega
    rw [if_neg h2]
    have h3 : checkParams kind cl 0 (f.inTypes.take (funcLimit f))
        (params.take (funcLimit f)) = none :=
      checkParams_none kind cl _ _ 0 (fun p hp => hnil p (List.take_subset _ _ hp))
    rw [h3]
    by_cases hv : f.variadic = true
    · simp only [hv, if_pos]
      exact checkVariadic_none kind cl _ _ (fun p hp => hnil p (List.drop_subset _ _ hp))
    · simp [hv]
  · simp only [invokeFunction]
    apply List.map_congr_left
    intro i hi
    have hil : i < params.length := List.mem_range.mp hi
    have hgetD : params[i]?.getD none = none := getD_none_of_all_none params i hnil
    by_cases hlt : i < funcLimit f
    · simp [hlt, hgetD, computeValue]
    · have hv : f.variadic = true := by
        rcases har with hv | he
        · exact hv
        · omega
      simp [hlt, hv, hgetD, computeValue]

/-- Witness for claim C10: an entry with two nil arguments against a
`func(int, string)` body validates and is invoked with the zero int and
the zero string. -/
theorem nil_parameters_ok_witness :
    ((∀ p ∈ ([none, none] : List (Option GoValue)), p = none) ∧
     funcLimit ⟨[.int, .string], false, []⟩ ≤ 2 ∧
     ((⟨[.int, .string], false, []⟩ : FuncType).variadic = true ∨
       2 = funcLimit ⟨[.int, .string], false, []⟩)) ∧
    (validateParameters ⟨[.int, .string], false, []⟩ [none, none] tableBodyKind 7 = none ∧
     invokeFunction ⟨[.int, .string], false, []⟩ [none, none] =
       (List.range 2).map (fun i =>
         if i < funcLimit ⟨[.int, .string], false, []⟩ then
           GoValue.zero ((⟨[.int, .string], false, []⟩ : FuncType).inTypes.getD i .iface)
         else GoValue.zero (elemType ((⟨[.int, .string], false, []⟩ : FuncType).inTypes.getD
           (funcLimit ⟨[.int, .string], false, []⟩) .iface)))) :=
  ⟨⟨by decide, by decide, Or.inr (by decide)⟩,
   nil_parameters_ok ⟨[.int, .string], false, []⟩ [none, none] tableBodyKind 7
     (by decide) (by decide) (Or.inr (by decide))⟩

end Ginkgo
